import Mathlib

/-!
Verification of the balance-ledger transaction engine of the sandbyt
trading-journal backend.

The embedding models the Python source shallowly:

* `app/db/database.py` — the `users` table (only the columns the ledger
  reads: `id` and `balance`) and the `transact` table, together with the
  functions `get_active_transaction`, `create_order_atomic` and
  `close_order_atomic`.  Python `Decimal` values are modelled as exact
  rationals (`ℚ`); writes into the `balance NUMERIC(20, 8)` column are
  modelled by the rounding function `numeric20_8` (see its doc comment).
  Timestamp columns (`created_at`, `updated_at`) and the user columns
  `email`, `password`, `name` are omitted: no operation modelled here
  reads them.
* `app/routers/order.py` — the handlers `create_order` and `close_order`
  and the serializer `_serialize_transaction` (here `serialize_transaction`).
  The outcome of the awaited call to
  `app/services/binance.py:get_current_price` is passed in explicitly as
  an `Except OracleErr ℚ` value; the handler's `try/except` mapping of
  oracle failures to HTTP errors is the `mapOracleErr` function.

Database transactions are modelled sequentially: a handler call is a
function from the database state to a result together with the new state,
and a failing call leaves the state unchanged (asyncpg rolls the
transaction back, and the handlers raise before touching the pool on the
early error paths).
-/

namespace Sandbyt

/-- One row of the `transact` table (`app/db/database.py`): columns
`id`, `symbol`, `buy_price`, `sell_price` (nullable), `status`
(1 = active, 2 = closed), `quantity`, `user_id`.  The timestamp columns
are omitted. -/
structure Transact where
  id : Nat
  symbol : String
  buy_price : ℚ
  sell_price : Option ℚ
  status : Nat
  quantity : ℚ
  user_id : Nat
deriving Repr, DecidableEq

/-- The ledger-relevant database state: the `users` table projected to
`(id, balance)` rows, the `transact` table, and the next value of the
`transact.id` sequence. -/
structure DB where
  users : List (Nat × ℚ)
  transacts : List Transact
  nextId : Nat
deriving Repr, DecidableEq

/-- Storage semantics of the `balance NUMERIC(20, 8)` column declared in
`init_db` (`app/db/database.py` line 44): PostgreSQL rounds an assigned
numeric value to 8 fractional digits, half away from zero.  (The
precision cap of 12 integral digits is not modelled; no claim concerns
it.) -/
def numeric20_8 (q : ℚ) : ℚ :=
  if q < 0 then -((⌊(-q) * 100000000 + 1/2⌋ : ℤ) : ℚ) / 100000000
  else ((⌊q * 100000000 + 1/2⌋ : ℤ) : ℚ) / 100000000

/-- Read of the `balance` column: `SELECT balance FROM users WHERE id = $1`
(first matching row, as `fetchrow`/`fetchval` return). -/
def lookupBalance (users : List (Nat × ℚ)) (uid : Nat) : Option ℚ :=
  (users.find? (fun r => r.1 == uid)).map (fun r => r.2)

/-- Balance of a user in a database state (`get_user_with_balance`
restricted to the `balance` column). -/
def balanceOf (db : DB) (uid : Nat) : Option ℚ :=
  lookupBalance db.users uid

/-- Effect of `UPDATE users SET balance = ... WHERE id = $1`: every row
whose `id` matches gets the new balance, stored at the column's
`NUMERIC(20, 8)` scale. -/
def usersUpdate (users : List (Nat × ℚ)) (uid : Nat) (f : ℚ → ℚ) :
    List (Nat × ℚ) :=
  users.map (fun r => if r.1 = uid then (r.1, numeric20_8 (f r.2)) else r)

/-- Predicate of the SQL filter
`WHERE user_id = $1 AND symbol = $2 AND status = 1`. -/
def isActiveFor (uid : Nat) (symbol : String) (t : Transact) : Bool :=
  t.user_id == uid && t.symbol == symbol && t.status == 1

/-- Embedding of `get_active_transaction` (`app/db/database.py`
lines 241–265): first `transact` row with the given user, symbol and
status 1. -/
def get_active_transaction (db : DB) (uid : Nat) (symbol : String) :
    Option Transact :=
  db.transacts.find? (isActiveFor uid symbol)

/-- Failure outcomes of `get_current_price` (`app/services/binance.py`):
`BinanceConnectionError`, `BinanceInvalidResponseError`,
`BinancePriceNotFoundError`, and the bare `BinanceAPIError` base class. -/
inductive OracleErr
  | connection
  | invalidResponse
  | priceNotFound
  | apiBase
deriving Repr, DecidableEq

/-- Error outcomes of the order handlers, one per distinct raised
`HTTPException`/`ValueError` path in `app/routers/order.py` and
`app/db/database.py`. -/
inductive OrderErr
  | priceConnection
  | priceInvalid
  | userNotFound
  | insufficientBalance
  | duplicateOrder
  | orderNotFound
deriving Repr, DecidableEq

/-- The `try/except` blocks of both handlers: `BinanceConnectionError`
becomes HTTP 503 (`priceConnection`); `BinanceInvalidResponseError` and
every other `BinanceAPIError` become HTTP 500 (`priceInvalid`). -/
def mapOracleErr : OracleErr → OrderErr
  | .connection => .priceConnection
  | .invalidResponse => .priceInvalid
  | .priceNotFound => .priceInvalid
  | .apiBase => .priceInvalid

/-- An error is in the `PriceUnavailable` class when it reports a Price
Oracle failure. -/
def isPriceError : OrderErr → Bool
  | .priceConnection => true
  | .priceInvalid => true
  | _ => false

/-- Embedding of `create_order_atomic` (`app/db/database.py`
lines 268–337): inside one database transaction, read the balance, fail
on a missing user or on `balance < total_cost`, otherwise insert the
active `transact` row and debit the balance. -/
def create_order_atomic (db : DB) (uid : Nat) (symbol : String)
    (buy_price quantity : ℚ) : Except OrderErr (Transact × DB) :=
  let total_cost := buy_price * quantity
  match balanceOf db uid with
  | none => .error .userNotFound
  | some user_balance =>
    if user_balance < total_cost then .error .insufficientBalance
    else
      let t : Transact :=
        ⟨db.nextId, symbol, buy_price, none, 1, quantity, uid⟩
      .ok (t, ⟨usersUpdate db.users uid (fun b => b - total_cost),
               db.transacts ++ [t], db.nextId + 1⟩)

/-- Embedding of the `POST /order` handler `create_order`
(`app/routers/order.py` lines 84–180): price fetch first, then balance
check, then duplicate check, then the atomic insert-and-debit.  The
oracle outcome is the explicit `oracle` argument. -/
def create_order (db : DB) (uid : Nat) (symbol : String)
    (oracle : Except OracleErr ℚ) (quantity : ℚ) :
    Except OrderErr (Transact × DB) :=
  match oracle with
  | .error e => .error (mapOracleErr e)
  | .ok buy_price =>
    let total_cost := buy_price * quantity
    match balanceOf db uid with
    | none => .error .userNotFound
    | some user_balance =>
      if user_balance < total_cost then .error .insufficientBalance
      else
        match get_active_transaction db uid symbol with
        | some _ => .error .duplicateOrder
        | none => create_order_atomic db uid symbol buy_price quantity

/-- Embedding of `close_order_atomic` (`app/db/database.py`
lines 373–442): inside one database transaction, find the active row
(fail with the no-active-order `ValueError` if absent), set
`sell_price` and `status = 2` on it, and credit the balance by
`sell_price * quantity` with the quantity re-read from the stored row. -/
def close_order_atomic (db : DB) (uid : Nat) (symbol : String)
    (sell_price : ℚ) : Except OrderErr (Transact × DB) :=
  match get_active_transaction db uid symbol with
  | none => .error .orderNotFound
  | some t =>
    let total_proceeds := sell_price * t.quantity
    .ok ({ t with sell_price := some sell_price, status := 2 },
         ⟨usersUpdate db.users uid (fun b => b + total_proceeds),
          db.transacts.map (fun x =>
            if x.id = t.id then { x with sell_price := some sell_price, status := 2 }
            else x),
          db.nextId⟩)

/-- Embedding of the `DELETE /order` handler `close_order`
(`app/routers/order.py` lines 189–258): the price fetch happens first,
before `close_order_atomic` performs the active-position lookup. -/
def close_order (db : DB) (uid : Nat) (symbol : String)
    (oracle : Except OracleErr ℚ) : Except OrderErr (Transact × DB) :=
  match oracle with
  | .error e => .error (mapOracleErr e)
  | .ok sell_price => close_order_atomic db uid symbol sell_price

/-- One inbound call on the order endpoints: an open with the symbol,
the oracle outcome observed during the call and the quantity, or a
close with the symbol and the oracle outcome. -/
inductive OpCall
  | openCall (symbol : String) (oracle : Except OracleErr ℚ) (quantity : ℚ)
  | closeCall (symbol : String) (oracle : Except OracleErr ℚ)
deriving Repr

/-- State effect of one call: a successful call commits its new state, a
failing call leaves the state unchanged (rollback / raise before any
mutation). -/
def applyCall (db : DB) (uid : Nat) : OpCall → DB
  | .openCall s o q =>
    match create_order db uid s o q with
    | .ok r => r.2
    | .error _ => db
  | .closeCall s o =>
    match close_order db uid s o with
    | .ok r => r.2
    | .error _ => db

/-- State effect of a sequence of calls on one account. -/
def runCalls (db : DB) (uid : Nat) : List OpCall → DB
  | [] => db
  | c :: cs => runCalls (applyCall db uid c) uid cs

/-- Two `transact` rows conflict when both are ACTIVE for the same
(user, symbol) pair. -/
def conflict (a b : Transact) : Prop :=
  a.status = 1 ∧ b.status = 1 ∧ a.user_id = b.user_id ∧ a.symbol = b.symbol

instance (a b : Transact) : Decidable (conflict a b) := by
  unfold conflict
  infer_instance

/-- Invariant: no two distinct rows of the `transact` table are both
ACTIVE for the same (user, symbol) pair. -/
def ActiveUnique (db : DB) : Prop :=
  db.transacts.Pairwise (fun a b => ¬ conflict a b)

instance (db : DB) : Decidable (ActiveUnique db) := by
  unfold ActiveUnique
  infer_instance

/-- Truthiness of a nullable `Decimal` as Python evaluates it in
`_serialize_transaction` (`app/routers/order.py` lines 42–75): `None` is
falsy, and so is `Decimal("0")`. -/
def pyDecOptTruthy : Option ℚ → Bool
  | none => false
  | some v => v != 0

/-- Output shape of `_serialize_transaction`: the `TransactionResponse`
fields of `app/schemas/order.py`, with decimal string fields modelled as
their exact numeric values and the timestamps omitted. -/
structure TransactionResponse where
  id : Nat
  symbol : String
  buy_price : ℚ
  sell_price : Option ℚ
  status : Nat
  quantity : ℚ
  user_id : Nat
  diff : Option ℚ
  buyAggregate : ℚ
  sellAggregate : Option ℚ
  diffDollar : ℚ
deriving Repr, DecidableEq

/-- Embedding of `_serialize_transaction` (`app/routers/order.py`
lines 42–75).  Every `X if Y else None` of the Python source is an
`if pyDecOptTruthy ...` here, because each such guard tests a nullable
`Decimal` for truthiness, not for presence. -/
def serialize_transaction (record : Transact) : TransactionResponse :=
  let sell_price : Option ℚ :=
    if pyDecOptTruthy record.sell_price then record.sell_price else none
  let buy_aggregate : ℚ := record.buy_price * record.quantity
  let sell_aggregate : Option ℚ :=
    if pyDecOptTruthy sell_price then sell_price.map (fun v => v * record.quantity)
    else none
  let diff : Option ℚ :=
    if pyDecOptTruthy sell_price then sell_price.map (fun v => v - record.buy_price)
    else none
  let diff_dollar : ℚ :=
    if record.status == 2 && pyDecOptTruthy sell_price then
      (sell_price.getD 0 - record.buy_price) * record.quantity
    else 0
  { id := record.id
    symbol := record.symbol
    buy_price := record.buy_price
    sell_price := if pyDecOptTruthy sell_price then sell_price else none
    status := record.status
    quantity := record.quantity
    user_id := record.user_id
    diff := if pyDecOptTruthy diff then diff else none
    buyAggregate := buy_aggregate
    sellAggregate := if pyDecOptTruthy sell_aggregate then sell_aggregate else none
    diffDollar := diff_dollar }

/-- Account 1 with balance 1000 and no orders. -/
def dbConservation : DB := ⟨[(1, 1000)], [], 1⟩

/-- Account 1 with balance 100 and no orders. -/
def dbDoubleOpen : DB := ⟨[(1, 100)], [], 1⟩

/-- Account 1 with balance 1000 and no orders. -/
def dbInvariantW : DB := ⟨[(1, 1000)], [], 1⟩

/-- Account 1 with balance 100 and one ACTIVE BTCUSDT position. -/
def dbEqualCost : DB := ⟨[(1, 100)], [⟨1, "BTCUSDT", 50, none, 1, 2, 1⟩], 2⟩

/-- Account 1 with balance 5 and no orders. -/
def dbInsufficientW : DB := ⟨[(1, 5)], [], 1⟩

/-- Account 1 with balance 10 and no orders. -/
def dbExactW : DB := ⟨[(1, 10)], [], 1⟩

/-- Account 1 with balance 1000 and exactly one ACTIVE BTCUSDT position
(buy price 50, quantity 2). -/
def dbDoubleCloseW : DB := ⟨[(1, 1000)], [⟨1, "BTCUSDT", 50, none, 1, 2, 1⟩], 2⟩

/-- Account 1 with balance 1000 and no active BTCUSDT position. -/
def dbOracleClose : DB := ⟨[(1, 1000)], [], 1⟩

/-- Account 1 with balance 0 and one ACTIVE BTCUSDT position of
quantity 1. -/
def dbCreditRounding : DB := ⟨[(1, 0)], [⟨1, "BTCUSDT", 1, none, 1, 1, 1⟩], 2⟩

/-- Account 1 with balance 1000 and one ACTIVE ETHUSDT position
(buy price 10, quantity 3). -/
def dbCloseW : DB := ⟨[(1, 1000)], [⟨7, "ETHUSDT", 10, none, 1, 3, 1⟩], 8⟩

end Sandbyt

namespace Sandbyt

theorem lookupBalance_usersUpdate {users : List (Nat × ℚ)} {uid : Nat} {b : ℚ}
    (f : ℚ → ℚ) (h : lookupBalance users uid = some b) :
    lookupBalance (usersUpdate users uid f) uid = some (numeric20_8 (f b)) := by
  induction users with
  | nil => simp [lookupBalance] at h
  | cons r rest ih =>
    by_cases hr : r.1 = uid
    · simp [lookupBalance, usersUpdate, hr] at h ⊢
      rw [h]
    · simp only [lookupBalance, usersUpdate, List.map_cons] at h ⊢
      rw [List.find?_cons_of_neg _ (by simp [hr])] at h
      rw [if_neg hr, List.find?_cons_of_neg _ (by simp [hr])]
      exact ih h

theorem find?_of_filter_eq_single {α : Type} {p : α → Bool} {l : List α} {t : α}
    (h : l.filter p = [t]) : l.find? p = some t := by
  induction l with
  | nil => simp at h
  | cons a l ih =>
    by_cases ha : p a
    · rw [List.filter_cons_of_pos ha] at h
      simp at h
      rw [List.find?_cons_of_pos _ ha, h.1]
    · rw [List.filter_cons_of_neg ha] at h
      rw [List.find?_cons_of_neg _ ha]
      exact ih h

theorem filter_map_close_eq_nil {l : List Transact} {uid : Nat} {s : String}
    {t : Transact} (h : l.filter (isActiveFor uid s) = [t]) (sp : ℚ) :
    (l.map (fun x =>
      if x.id = t.id then { x with sell_price := some sp, status := 2 } else x)).filter
        (isActiveFor uid s) = [] := by
  rw [List.filter_eq_nil_iff]
  intro a ha
  rw [List.mem_map] at ha
  obtain ⟨x, hx, rfl⟩ := ha
  by_cases hid : x.id = t.id
  · simp [hid, isActiveFor]
  · rw [if_neg hid]
    intro hact
    have hxf : x ∈ l.filter (isActiveFor uid s) := List.mem_filter.mpr ⟨hx, hact⟩
    rw [h] at hxf
    simp at hxf
    exact hid (by rw [hxf])

theorem create_order_ok_inv {db : DB} {uid : Nat} {s : String}
    {o : Except OracleErr ℚ} {q : ℚ} {t : Transact} {db' : DB}
    (h : create_order db uid s o q = .ok (t, db')) :
    ∃ p bal, o = .ok p ∧ balanceOf db uid = some bal ∧ ¬ bal < p * q ∧
      get_active_transaction db uid s = none ∧
      t = ⟨db.nextId, s, p, none, 1, q, uid⟩ ∧
      db' = ⟨usersUpdate db.users uid (fun b => b - p * q),
             db.transacts ++ [⟨db.nextId, s, p, none, 1, q, uid⟩],
             db.nextId + 1⟩ := by
  cases o with
  | error e => simp [create_order] at h
  | ok p =>
    cases hb : balanceOf db uid with
    | none => simp [create_order, hb] at h
    | some bal =>
      by_cases hlt : bal < p * q
      · simp [create_order, hb, hlt] at h
      · cases hact : get_active_transaction db uid s with
        | some t0 => simp [create_order, hb, hlt, hact] at h
        | none =>
          simp [create_order, create_order_atomic, hb, hlt, hact] at h
          exact ⟨p, bal, rfl, rfl, hlt, rfl, h.1.symm, h.2.symm⟩

theorem close_order_ok_inv {db : DB} {uid : Nat} {s : String}
    {o : Except OracleErr ℚ} {t' : Transact} {db' : DB}
    (h : close_order db uid s o = .ok (t', db')) :
    ∃ p t, o = .ok p ∧ get_active_transaction db uid s = some t ∧
      t' = { t with sell_price := some p, status := 2 } ∧
      db' = ⟨usersUpdate db.users uid (fun b => b + p * t.quantity),
             db.transacts.map (fun x =>
               if x.id = t.id then { x with sell_price := some p, status := 2 }
               else x),
             db.nextId⟩ := by
  cases o with
  | error e => simp [close_order] at h
  | ok p =>
    cases hact : get_active_transaction db uid s with
    | none => simp [close_order, close_order_atomic, hact] at h
    | some t =>
      simp [close_order, close_order_atomic, hact] at h
      exact ⟨p, t, rfl, rfl, h.1.symm, h.2.symm⟩

theorem create_order_ok_eval {db : DB} {uid : Nat} {s : String} {p q bal : ℚ}
    (hb : balanceOf db uid = some bal) (hlt : ¬ bal < p * q)
    (hact : get_active_transaction db uid s = none) :
    create_order db uid s (.ok p) q =
      .ok (⟨db.nextId, s, p, none, 1, q, uid⟩,
           ⟨usersUpdate db.users uid (fun b => b - p * q),
            db.transacts ++ [⟨db.nextId, s, p, none, 1, q, uid⟩],
            db.nextId + 1⟩) := by
  simp [create_order, create_order_atomic, hb, hlt, hact]

theorem close_order_ok_eval {db : DB} {uid : Nat} {s : String} {p : ℚ}
    {t : Transact} (hact : get_active_transaction db uid s = some t) :
    close_order db uid s (.ok p) =
      .ok ({ t with sell_price := some p, status := 2 },
           ⟨usersUpdate db.users uid (fun b => b + p * t.quantity),
            db.transacts.map (fun x =>
              if x.id = t.id then { x with sell_price := some p, status := 2 }
              else x),
            db.nextId⟩) := by
  simp [close_order, close_order_atomic, hact]

theorem applyCall_open_ok {db db' : DB} {uid : Nat} {s : String}
    {o : Except OracleErr ℚ} {q : ℚ} {t : Transact}
    (h : create_order db uid s o q = .ok (t, db')) :
    applyCall db uid (.openCall s o q) = db' := by
  simp [applyCall, h]

theorem applyCall_open_error {db : DB} {uid : Nat} {s : String}
    {o : Except OracleErr ℚ} {q : ℚ} {e : OrderErr}
    (h : create_order db uid s o q = .error e) :
    applyCall db uid (.openCall s o q) = db := by
  simp [applyCall, h]

theorem applyCall_close_ok {db db' : DB} {uid : Nat} {s : String}
    {o : Except OracleErr ℚ} {t : Transact}
    (h : close_order db uid s o = .ok (t, db')) :
    applyCall db uid (.closeCall s o) = db' := by
  simp [applyCall, h]

theorem applyCall_close_error {db : DB} {uid : Nat} {s : String}
    {o : Except OracleErr ℚ} {e : OrderErr}
    (h : close_order db uid s o = .error e) :
    applyCall db uid (.closeCall s o) = db := by
  simp [applyCall, h]

theorem pairwise_filter_length {l : List Transact}
    (h : l.Pairwise (fun a b => ¬ conflict a b)) (uid : Nat) (s : String) :
    (l.filter (isActiveFor uid s)).length ≤ 1 := by
  induction h with
  | nil => simp
  | @cons a l h1 h2 ih =>
    by_cases ha : isActiveFor uid s a
    · rw [List.filter_cons_of_pos ha]
      have hnil : l.filter (isActiveFor uid s) = [] := by
        rw [List.filter_eq_nil_iff]
        intro x hx hax
        simp [isActiveFor] at ha hax
        obtain ⟨⟨hau, has⟩, hast⟩ := ha
        obtain ⟨⟨hxu, hxs⟩, hxst⟩ := hax
        exact h1 x hx ⟨hast, hxst, by rw [hau, hxu], by rw [has, hxs]⟩
      rw [hnil]
      simp
    · rw [List.filter_cons_of_neg ha]
      exact ih

theorem activeUnique_applyCall {db : DB} (h : ActiveUnique db) (uid : Nat)
    (c : OpCall) : ActiveUnique (applyCall db uid c) := by
  cases c with
  | openCall s o q =>
    cases hco : create_order db uid s o q with
    | error e =>
      rw [applyCall_open_error hco]
      exact h
    | ok r =>
      obtain ⟨t, db'⟩ := r
      rw [applyCall_open_ok hco]
      obtain ⟨p, bal, ho, hb, hlt, hact, ht, hdb⟩ := create_order_ok_inv hco
      subst hdb
      show List.Pairwise (fun a b => ¬ conflict a b)
        (db.transacts ++ [⟨db.nextId, s, p, none, 1, q, uid⟩])
      rw [List.pairwise_append]
      refine ⟨h, by simp, ?_⟩
      intro a ha b hb' hc
      simp at hb'
      subst hb'
      rw [get_active_transaction, List.find?_eq_none] at hact
      obtain ⟨ha1, _, hu, hs⟩ := hc
      exact hact a ha (by simp [isActiveFor, ha1, hu, hs])
  | closeCall s o =>
    cases hco : close_order db uid s o with
    | error e =>
      rw [applyCall_close_error hco]
      exact h
    | ok r =>
      obtain ⟨t', db'⟩ := r
      rw [applyCall_close_ok hco]
      obtain ⟨p, t, ho, hact, ht', hdb⟩ := close_order_ok_inv hco
      subst hdb
      show List.Pairwise (fun a b => ¬ conflict a b)
        (db.transacts.map (fun x =>
          if x.id = t.id then { x with sell_price := some p, status := 2 }
          else x))
      refine List.Pairwise.map _ ?_ h
      intro a b hab hc
      apply hab
      by_cases hia : a.id = t.id
      · rw [if_pos hia] at hc
        exact absurd hc.1 (by simp)
      · rw [if_neg hia] at hc
        by_cases hib : b.id = t.id
        · rw [if_pos hib] at hc
          exact absurd hc.2.1 (by simp)
        · rw [if_neg hib] at hc
          exact hc

theorem activeUnique_runCalls {db : DB} (h : ActiveUnique db) (uid : Nat)
    (cs : List OpCall) : ActiveUnique (runCalls db uid cs) := by
  induction cs generalizing db with
  | nil => exact h
  | cons c cs ih => exact ih (activeUnique_applyCall h uid c)

theorem open_twice_steps {db : DB} {uid : Nat} {s : String} {p1 q1 p2 q2 bal0 : ℚ}
    (hb : balanceOf db uid = some bal0)
    (hact : get_active_transaction db uid s = none)
    (h1 : ¬ bal0 < p1 * q1)
    (h2 : p2 * q2 ≤ numeric20_8 (bal0 - p1 * q1)) :
    (create_order db uid s (.ok p1) q1).isOk = true
    ∧ (get_active_transaction (applyCall db uid (.openCall s (.ok p1) q1)) uid s).isSome
        = true
    ∧ create_order (applyCall db uid (.openCall s (.ok p1) q1)) uid s (.ok p2) q2
        = .error .duplicateOrder
    ∧ balanceOf (applyCall db uid (.openCall s (.ok p1) q1)) uid
        = some (numeric20_8 (bal0 - p1 * q1))
    ∧ applyCall (applyCall db uid (.openCall s (.ok p1) q1)) uid
        (.openCall s (.ok p2) q2)
      = applyCall db uid (.openCall s (.ok p1) q1) := by
  have heval := create_order_ok_eval hb h1 hact
  have happ := applyCall_open_ok heval
  have hbal1 : balanceOf (applyCall db uid (.openCall s (.ok p1) q1)) uid
      = some (numeric20_8 (bal0 - p1 * q1)) := by
    rw [happ]
    exact lookupBalance_usersUpdate (fun b => b - p1 * q1) hb
  have hact' : db.transacts.find? (isActiveFor uid s) = none := hact
  have hget1 : get_active_transaction (applyCall db uid (.openCall s (.ok p1) q1)) uid s
      = some ⟨db.nextId, s, p1, none, 1, q1, uid⟩ := by
    rw [happ]
    show (db.transacts ++ [(⟨db.nextId, s, p1, none, 1, q1, uid⟩ : Transact)]).find?
      (isActiveFor uid s) = _
    rw [List.find?_append, hact']
    simp [isActiveFor]
  have hsecond : create_order (applyCall db uid (.openCall s (.ok p1) q1)) uid s
      (.ok p2) q2 = .error .duplicateOrder := by
    rw [create_order, hbal1]
    simp only [hget1]
    rw [if_neg (not_lt.mpr h2)]
  exact ⟨by rw [heval]; rfl, by rw [hget1]; rfl, hsecond, hbal1,
    applyCall_open_error hsecond⟩

theorem open_twice_insufficient_steps {db : DB} {uid : Nat} {s : String}
    {p1 q1 p2 q2 bal0 : ℚ}
    (hb : balanceOf db uid = some bal0)
    (hact : get_active_transaction db uid s = none)
    (h1 : ¬ bal0 < p1 * q1)
    (h2 : numeric20_8 (bal0 - p1 * q1) < p2 * q2) :
    create_order (applyCall db uid (.openCall s (.ok p1) q1)) uid s (.ok p2) q2
        = .error .insufficientBalance
    ∧ applyCall (applyCall db uid (.openCall s (.ok p1) q1)) uid
        (.openCall s (.ok p2) q2)
      = applyCall db uid (.openCall s (.ok p1) q1) := by
  have heval := create_order_ok_eval hb h1 hact
  have happ := applyCall_open_ok heval
  have hbal1 : balanceOf (applyCall db uid (.openCall s (.ok p1) q1)) uid
      = some (numeric20_8 (bal0 - p1 * q1)) := by
    rw [happ]
    exact lookupBalance_usersUpdate (fun b => b - p1 * q1) hb
  have hsecond : create_order (applyCall db uid (.openCall s (.ok p1) q1)) uid s
      (.ok p2) q2 = .error .insufficientBalance := by
    simp [create_order, hbal1, h2]
  exact ⟨hsecond, applyCall_open_error hsecond⟩

end Sandbyt

namespace Sandbyt

/-- C1: the conservation claim fails on the code because the
`balance NUMERIC(20, 8)` column stores only 8 fractional digits.  For
account 1 with balance 1000, one successful open at oracle price
10^-20 (a decimal input with 20 fractional digits) and quantity 1
leaves the stored balance at exactly 1000, whereas conservation demands
`balance_before - totalCost = 1000 - 10^-20`, which differs from 1000.
The repository's own test
`test_update_user_balance_maintains_decimal_precision` expects a
`DECIMAL(30, 20)` column, so the claim matches the intent and the DDL
is the slip. -/
theorem conservation_rounding_bug :
    (create_order dbConservation 1 "BTCUSDT" (Except.ok (1/10^20)) 1).isOk = true
    ∧ balanceOf (runCalls dbConservation 1
        [OpCall.openCall "BTCUSDT" (Except.ok (1/10^20)) 1]) 1 = some 1000
    ∧ (1000 : ℚ) - (1/10^20) * 1 ≠ 1000 := by
  norm_num [runCalls, applyCall, create_order, create_order_atomic, balanceOf,
    lookupBalance, dbConservation, get_active_transaction, usersUpdate,
    numeric20_8, Except.isOk, Except.toBool]

/-- C2 counterexample: for account 1 with balance 100, two opens in a row
for BTCUSDT at price 60 and quantity 1 leave the first position ACTIVE,
yet the second call fails with the InsufficientBalance error, not with
DuplicatePosition, because the handler checks the balance before it
checks for a duplicate. -/
theorem double_open_wrong_error_counterexample :
    (create_order dbDoubleOpen 1 "BTCUSDT" (Except.ok 60) 1).isOk = true
    ∧ (get_active_transaction
        (applyCall dbDoubleOpen 1 (OpCall.openCall "BTCUSDT" (Except.ok 60) 1))
        1 "BTCUSDT").isSome = true
    ∧ create_order
        (applyCall dbDoubleOpen 1 (OpCall.openCall "BTCUSDT" (Except.ok 60) 1))
        1 "BTCUSDT" (Except.ok 60) 1 = Except.error OrderErr.insufficientBalance
    ∧ OrderErr.insufficientBalance ≠ OrderErr.duplicateOrder := by
  norm_num [create_order, create_order_atomic, balanceOf, lookupBalance,
    dbDoubleOpen, get_active_transaction, isActiveFor, usersUpdate,
    numeric20_8, applyCall, Except.isOk, Except.toBool]
  decide

/-- C2 (amended): at most one ACTIVE position per (user, symbol) is
preserved by every open and close call, hence by every reachable state
and every run; under the invariant each (user, symbol) pair has at most
one ACTIVE row.  Opening twice in a row for the same account and symbol
while the first position is still ACTIVE fails the second call with
DuplicatePosition provided the balance remaining after the first debit
still covers the second totalCost; if it does not, the second call
fails with InsufficientBalance instead.  In both cases the balance is
debited exactly once and the failing second call changes nothing. -/
theorem active_unique_and_double_open :
    (∀ (db : DB) (uid : Nat) (c : OpCall),
        ActiveUnique db → ActiveUnique (applyCall db uid c))
    ∧ (∀ (db : DB) (uid : Nat) (cs : List OpCall),
        ActiveUnique db → ActiveUnique (runCalls db uid cs))
    ∧ (∀ (db : DB) (uid : Nat) (s : String), ActiveUnique db →
        (db.transacts.filter (isActiveFor uid s)).length ≤ 1)
    ∧ (∀ (db : DB) (uid : Nat) (s : String) (p1 q1 p2 q2 bal0 : ℚ),
        balanceOf db uid = some bal0 →
        get_active_transaction db uid s = none →
        ¬ bal0 < p1 * q1 →
        p2 * q2 ≤ numeric20_8 (bal0 - p1 * q1) →
        (create_order db uid s (.ok p1) q1).isOk = true
        ∧ (get_active_transaction
            (applyCall db uid (.openCall s (.ok p1) q1)) uid s).isSome = true
        ∧ create_order (applyCall db uid (.openCall s (.ok p1) q1)) uid s
            (.ok p2) q2 = .error .duplicateOrder
        ∧ balanceOf (applyCall db uid (.openCall s (.ok p1) q1)) uid
            = some (numeric20_8 (bal0 - p1 * q1))
        ∧ applyCall (applyCall db uid (.openCall s (.ok p1) q1)) uid
            (.openCall s (.ok p2) q2)
          = applyCall db uid (.openCall s (.ok p1) q1))
    ∧ (∀ (db : DB) (uid : Nat) (s : String) (p1 q1 p2 q2 bal0 : ℚ),
        balanceOf db uid = some bal0 →
        get_active_transaction db uid s = none →
        ¬ bal0 < p1 * q1 →
        numeric20_8 (bal0 - p1 * q1) < p2 * q2 →
        create_order (applyCall db uid (.openCall s (.ok p1) q1)) uid s
            (.ok p2) q2 = .error .insufficientBalance
        ∧ applyCall (applyCall db uid (.openCall s (.ok p1) q1)) uid
            (.openCall s (.ok p2) q2)
          = applyCall db uid (.openCall s (.ok p1) q1)) :=
  ⟨fun _ uid c h => activeUnique_applyCall h uid c,
   fun _ uid cs h => activeUnique_runCalls h uid cs,
   fun _ uid s h => pairwise_filter_length h uid s,
   fun _ _ _ _ _ _ _ _ hb hact h1 h2 => open_twice_steps hb hact h1 h2,
   fun _ _ _ _ _ _ _ _ hb hact h1 h2 =>
     open_twice_insufficient_steps hb hact h1 h2⟩

/-- C2 witness: the amended claim evaluated on account 1 with
balance 1000 and an empty order book, at oracle price 10 and
quantity 1. -/
theorem active_unique_and_double_open_witness :
    ActiveUnique dbInvariantW
    ∧ ActiveUnique (applyCall dbInvariantW 1
        (OpCall.openCall "BTCUSDT" (Except.ok 10) 1))
    ∧ (dbInvariantW.transacts.filter (isActiveFor 1 "BTCUSDT")).length ≤ 1
    ∧ ((create_order dbInvariantW 1 "BTCUSDT" (Except.ok 10) 1).isOk = true
       ∧ (get_active_transaction
           (applyCall dbInvariantW 1 (OpCall.openCall "BTCUSDT" (Except.ok 10) 1))
           1 "BTCUSDT").isSome = true
       ∧ create_order
           (applyCall dbInvariantW 1 (OpCall.openCall "BTCUSDT" (Except.ok 10) 1))
           1 "BTCUSDT" (Except.ok 10) 1 = Except.error OrderErr.duplicateOrder
       ∧ balanceOf
           (applyCall dbInvariantW 1 (OpCall.openCall "BTCUSDT" (Except.ok 10) 1))
           1 = some (numeric20_8 (1000 - 10 * 1))
       ∧ applyCall
           (applyCall dbInvariantW 1 (OpCall.openCall "BTCUSDT" (Except.ok 10) 1))
           1 (OpCall.openCall "BTCUSDT" (Except.ok 10) 1)
         = applyCall dbInvariantW 1 (OpCall.openCall "BTCUSDT" (Except.ok 10) 1))
    ∧ (create_order
         (applyCall dbInvariantW 1 (OpCall.openCall "BTCUSDT" (Except.ok 10) 1))
         1 "BTCUSDT" (Except.ok 1000) 1 = Except.error OrderErr.insufficientBalance
       ∧ applyCall
           (applyCall dbInvariantW 1 (OpCall.openCall "BTCUSDT" (Except.ok 10) 1))
           1 (OpCall.openCall "BTCUSDT" (Except.ok 1000) 1)
         = applyCall dbInvariantW 1 (OpCall.openCall "BTCUSDT" (Except.ok 10) 1)) :=
  ⟨by decide,
   active_unique_and_double_open.1 dbInvariantW 1
     (OpCall.openCall "BTCUSDT" (Except.ok 10) 1) (by decide),
   active_unique_and_double_open.2.2.1 dbInvariantW 1 "BTCUSDT" (by decide),
   active_unique_and_double_open.2.2.2.1 dbInvariantW 1 "BTCUSDT" 10 1 10 1 1000
     rfl rfl (by norm_num) (by norm_num [numeric20_8]),
   active_unique_and_double_open.2.2.2.2 dbInvariantW 1 "BTCUSDT" 10 1 1000 1 1000
     rfl rfl (by norm_num) (by norm_num [numeric20_8])⟩

end Sandbyt

namespace Sandbyt

/-- C3 counterexample: for account 1 with balance 100, an existing ACTIVE
BTCUSDT position, oracle price 100 and quantity 1, the balance equals
totalCost exactly, yet the open does not succeed: it fails with the
DuplicatePosition error. -/
theorem equal_balance_duplicate_counterexample :
    balanceOf dbEqualCost 1 = some ((100 : ℚ) * 1)
    ∧ create_order dbEqualCost 1 "BTCUSDT" (Except.ok 100) 1
        = Except.error OrderErr.duplicateOrder
    ∧ (create_order dbEqualCost 1 "BTCUSDT" (Except.ok 100) 1).isOk = false := by
  norm_num [create_order, create_order_atomic, balanceOf, lookupBalance,
    dbEqualCost, get_active_transaction, isActiveFor, Except.isOk,
    Except.toBool]

/-- C3 (amended): for an existing account, open fails with the
InsufficientBalance error exactly when the current balance is strictly
below totalCost; with balance exactly equal to totalCost it is not
rejected for insufficient balance, and it succeeds provided no ACTIVE
position for the pair exists; and an InsufficientBalance failure leaves
the database unchanged. -/
theorem insufficient_balance_iff (db : DB) (uid : Nat) (s : String)
    (p q bal : ℚ) (hb : balanceOf db uid = some bal) :
    (create_order db uid s (.ok p) q = .error .insufficientBalance ↔ bal < p * q)
    ∧ (bal = p * q → get_active_transaction db uid s = none →
        (create_order db uid s (.ok p) q).isOk = true)
    ∧ (bal < p * q → applyCall db uid (.openCall s (.ok p) q) = db) := by
  by_cases hlt : bal < p * q
  · have he : create_order db uid s (.ok p) q = .error .insufficientBalance := by
      simp [create_order, hb, hlt]
    refine ⟨by simp [he, hlt], ?_, ?_⟩
    · intro hbeq
      exact absurd hlt (by rw [hbeq]; exact lt_irrefl _)
    · intro _
      exact applyCall_open_error he
  · refine ⟨?_, ?_, fun hc => absurd hc hlt⟩
    · constructor
      · intro he
        cases hget : get_active_transaction db uid s with
        | some t0 => simp [create_order, hb, hlt, hget] at he
        | none =>
          rw [create_order_ok_eval hb hlt hget] at he
          exact absurd he (by simp)
      · intro hc
        exact absurd hc hlt
    · intro _ hget
      rw [create_order_ok_eval hb hlt hget]
      rfl

/-- C3 witness: account 1 with balance 5 is rejected for insufficient
balance at totalCost 10 with no state change; account 1 with balance 10
succeeds at totalCost exactly 10. -/
theorem insufficient_balance_iff_witness :
    create_order dbInsufficientW 1 "BTCUSDT" (Except.ok 10) 1
        = Except.error OrderErr.insufficientBalance
    ∧ applyCall dbInsufficientW 1 (OpCall.openCall "BTCUSDT" (Except.ok 10) 1)
        = dbInsufficientW
    ∧ (create_order dbExactW 1 "BTCUSDT" (Except.ok 10) 1).isOk = true :=
  ⟨(insufficient_balance_iff dbInsufficientW 1 "BTCUSDT" 10 1 5 rfl).1.mpr
     (by norm_num),
   (insufficient_balance_iff dbInsufficientW 1 "BTCUSDT" 10 1 5 rfl).2.2
     (by norm_num),
   (insufficient_balance_iff dbExactW 1 "BTCUSDT" 10 1 10 rfl).2.1
     (by norm_num) rfl⟩

/-- C4: with an account and exactly one ACTIVE position for the symbol,
closing twice in a row (the oracle succeeding both times) succeeds the
first time and fails the second time with the PositionNotFound error;
the balance is credited exactly once, by the first close, and the
failing second call changes neither the balance nor the position set. -/
theorem double_close_not_found (db : DB) (uid : Nat) (s : String)
    (p1 p2 bal : ℚ) (t : Transact)
    (hb : balanceOf db uid = some bal)
    (hf : db.transacts.filter (isActiveFor uid s) = [t]) :
    (close_order db uid s (.ok p1)).isOk = true
    ∧ close_order (applyCall db uid (.closeCall s (.ok p1))) uid s (.ok p2)
        = .error .orderNotFound
    ∧ balanceOf (applyCall db uid (.closeCall s (.ok p1))) uid
        = some (numeric20_8 (bal + p1 * t.quantity))
    ∧ applyCall (applyCall db uid (.closeCall s (.ok p1))) uid
        (.closeCall s (.ok p2))
      = applyCall db uid (.closeCall s (.ok p1)) := by
  have hact : get_active_transaction db uid s = some t :=
    find?_of_filter_eq_single hf
  have heval := close_order_ok_eval (p := p1) hact
  have happ := applyCall_close_ok heval
  have hget1 : get_active_transaction (applyCall db uid (.closeCall s (.ok p1))) uid s
      = none := by
    rw [happ]
    show (db.transacts.map _).find? (isActiveFor uid s) = none
    rw [List.find?_eq_none]
    have hnil := filter_map_close_eq_nil hf p1
    rw [List.filter_eq_nil_iff] at hnil
    exact hnil
  have hsecond : close_order (applyCall db uid (.closeCall s (.ok p1))) uid s (.ok p2)
      = .error .orderNotFound := by
    rw [close_order, close_order_atomic, hget1]
  refine ⟨by rw [heval]; rfl, hsecond, ?_, applyCall_close_error hsecond⟩
  rw [happ]
  exact lookupBalance_usersUpdate (fun b => b + p1 * t.quantity) hb

/-- C4 witness: account 1 with balance 1000 and one ACTIVE BTCUSDT
position of quantity 2; first close at price 60 succeeds and credits
120, second close at price 70 fails with the order-not-found error and
changes nothing. -/
theorem double_close_not_found_witness :
    (close_order dbDoubleCloseW 1 "BTCUSDT" (Except.ok 60)).isOk = true
    ∧ close_order (applyCall dbDoubleCloseW 1 (OpCall.closeCall "BTCUSDT" (Except.ok 60)))
        1 "BTCUSDT" (Except.ok 70) = Except.error OrderErr.orderNotFound
    ∧ balanceOf (applyCall dbDoubleCloseW 1 (OpCall.closeCall "BTCUSDT" (Except.ok 60))) 1
        = some (numeric20_8 (1000 + 60 * 2))
    ∧ applyCall (applyCall dbDoubleCloseW 1 (OpCall.closeCall "BTCUSDT" (Except.ok 60)))
        1 (OpCall.closeCall "BTCUSDT" (Except.ok 70))
      = applyCall dbDoubleCloseW 1 (OpCall.closeCall "BTCUSDT" (Except.ok 60)) :=
  double_close_not_found dbDoubleCloseW 1 "BTCUSDT" 60 70 1000
    ⟨1, "BTCUSDT", 50, none, 1, 2, 1⟩ rfl rfl

/-- C5: if the Price Oracle fails during an open call — connection
error, timeout, invalid response, missing price, or any other client
failure — the call returns the mapped PriceUnavailable-class error and
the database afterwards is identical to the database before the call. -/
theorem open_oracle_failure_atomicity (db : DB) (uid : Nat) (s : String)
    (q : ℚ) (e : OracleErr) :
    create_order db uid s (.error e) q = .error (mapOracleErr e)
    ∧ isPriceError (mapOracleErr e) = true
    ∧ applyCall db uid (.openCall s (.error e) q) = db := by
  refine ⟨rfl, ?_, rfl⟩
  cases e <;> rfl

/-- C6: the durable balance column is `NUMERIC(20, 8)`, so a value with
20 fractional digits is rounded on storage: 10^-20 is stored as 0,
which differs from 10^-20, while values with at most 8 fractional
digits such as 10^-8 are stored exactly.  The repository's own test
`test_update_user_balance_maintains_decimal_precision` expects a
`DECIMAL(30, 20)` column, so the claim matches the intent and the DDL
is the slip. -/
theorem balance_column_rounding_bug :
    numeric20_8 (1/10^20) = 0
    ∧ ((1 : ℚ)/10^20) ≠ 0
    ∧ numeric20_8 (1/10^8) = 1/10^8 := by
  norm_num [numeric20_8]

/-- C7: with no ACTIVE BTCUSDT position for account 1 and a failing
oracle, close reports the PriceUnavailable-class connection error, not
PositionNotFound, because the handler fetches the price before
`close_order_atomic` performs the position lookup; the endpoint's own
docstring lists the lookup before the fetch.  The database is
unchanged. -/
theorem close_price_fetch_order_bug :
    get_active_transaction dbOracleClose 1 "BTCUSDT" = none
    ∧ close_order dbOracleClose 1 "BTCUSDT" (Except.error OracleErr.connection)
        = Except.error (mapOracleErr OracleErr.connection)
    ∧ isPriceError (mapOracleErr OracleErr.connection) = true
    ∧ mapOracleErr OracleErr.connection ≠ OrderErr.orderNotFound
    ∧ applyCall dbOracleClose 1
        (OpCall.closeCall "BTCUSDT" (Except.error OracleErr.connection))
      = dbOracleClose := by
  refine ⟨rfl, rfl, rfl, by decide, rfl⟩

/-- C8 counterexample: for account 1 with balance 0 and an ACTIVE
position of quantity 1, a successful close at oracle price 10^-20
stores balance 0, not the proceeds 10^-20: the credit is rounded away
by the `NUMERIC(20, 8)` balance column, so the balance is not credited
by exactly `sell_price * quantity`. -/
theorem close_credit_rounding_counterexample :
    (close_order dbCreditRounding 1 "BTCUSDT" (Except.ok (1/10^20))).isOk = true
    ∧ balanceOf (applyCall dbCreditRounding 1
        (OpCall.closeCall "BTCUSDT" (Except.ok (1/10^20)))) 1 = some 0
    ∧ (0 : ℚ) + (1/10^20) * 1 ≠ 0 := by
  norm_num [close_order, close_order_atomic, balanceOf, lookupBalance,
    dbCreditRounding, get_active_transaction, isActiveFor, usersUpdate,
    numeric20_8, applyCall, Except.isOk, Except.toBool]

/-- C8 (amended): for an account and symbol with an ACTIVE position, a
successful close returns the updated record with status CLOSED,
sell_price equal to the oracle price and the quantity and buy price
taken from the stored row (the handler accepts no quantity argument),
and in the same atomic unit credits the balance by
`sell_price * stored quantity` rounded to the 8-fractional-digit scale
of the `NUMERIC(20, 8)` balance column, which equals the exact proceeds
whenever the credited sum has at most 8 fractional digits. -/
theorem close_returns_updated_position (db : DB) (uid : Nat) (s : String)
    (p bal : ℚ) (t : Transact)
    (hb : balanceOf db uid = some bal)
    (hact : get_active_transaction db uid s = some t) :
    (close_order db uid s (.ok p)).isOk = true
    ∧ ∀ t' db', close_order db uid s (.ok p) = .ok (t', db') →
        t'.status = 2 ∧ t'.sell_price = some p ∧ t'.quantity = t.quantity
        ∧ t'.buy_price = t.buy_price ∧ t'.id = t.id
        ∧ balanceOf db' uid = some (numeric20_8 (bal + p * t.quantity)) := by
  have heval := close_order_ok_eval (p := p) hact
  refine ⟨by rw [heval]; rfl, ?_⟩
  intro t' db' h
  rw [heval] at h
  simp at h
  obtain ⟨ht', hdb'⟩ := h
  subst ht'
  subst hdb'
  refine ⟨rfl, rfl, rfl, rfl, rfl, ?_⟩
  exact lookupBalance_usersUpdate (fun b => b + p * t.quantity) hb

/-- C8 witness: account 1 with balance 1000 and an ACTIVE ETHUSDT
position (buy 10, quantity 3) closed at price 12: the returned record
is CLOSED with sell_price 12 and the stored quantity, and the balance
becomes 1036. -/
theorem close_returns_updated_position_witness :
    (close_order dbCloseW 1 "ETHUSDT" (Except.ok 12)).isOk = true
    ∧ ((⟨7, "ETHUSDT", 10, some 12, 2, 3, 1⟩ : Transact).status = 2
       ∧ (⟨7, "ETHUSDT", 10, some 12, 2, 3, 1⟩ : Transact).sell_price = some 12
       ∧ (⟨7, "ETHUSDT", 10, some 12, 2, 3, 1⟩ : Transact).quantity
           = (⟨7, "ETHUSDT", 10, none, 1, 3, 1⟩ : Transact).quantity
       ∧ (⟨7, "ETHUSDT", 10, some 12, 2, 3, 1⟩ : Transact).buy_price
           = (⟨7, "ETHUSDT", 10, none, 1, 3, 1⟩ : Transact).buy_price
       ∧ (⟨7, "ETHUSDT", 10, some 12, 2, 3, 1⟩ : Transact).id
           = (⟨7, "ETHUSDT", 10, none, 1, 3, 1⟩ : Transact).id
       ∧ balanceOf ⟨[(1, 1036)], [⟨7, "ETHUSDT", 10, some 12, 2, 3, 1⟩], 8⟩ 1
           = some (numeric20_8 (1000 + 12 * 3))) :=
  ⟨(close_returns_updated_position dbCloseW 1 "ETHUSDT" 12 1000
      ⟨7, "ETHUSDT", 10, none, 1, 3, 1⟩ rfl rfl).1,
   (close_returns_updated_position dbCloseW 1 "ETHUSDT" 12 1000
      ⟨7, "ETHUSDT", 10, none, 1, 3, 1⟩ rfl rfl).2
     ⟨7, "ETHUSDT", 10, some 12, 2, 3, 1⟩
     ⟨[(1, 1036)], [⟨7, "ETHUSDT", 10, some 12, 2, 3, 1⟩], 8⟩
     (by norm_num [close_order, close_order_atomic, get_active_transaction,
        isActiveFor, usersUpdate, numeric20_8, dbCloseW])⟩

/-- C10: a `transact` record with status CLOSED but stored sell_price 0
serializes with sell_price, diff and sellAggregate absent and diffDollar
zero — the same four values as a record that was never closed — because
`_serialize_transaction` tests sell_price for truthiness and
`Decimal("0")` is falsy. -/
theorem serialize_zero_sell_price (i : Nat) (sym : String) (bp q : ℚ)
    (uid : Nat) :
    (serialize_transaction ⟨i, sym, bp, some 0, 2, q, uid⟩).sell_price = none
    ∧ (serialize_transaction ⟨i, sym, bp, some 0, 2, q, uid⟩).diff = none
    ∧ (serialize_transaction ⟨i, sym, bp, some 0, 2, q, uid⟩).sellAggregate = none
    ∧ (serialize_transaction ⟨i, sym, bp, some 0, 2, q, uid⟩).diffDollar = 0
    ∧ serialize_transaction ⟨i, sym, bp, some 0, 2, q, uid⟩
        = { serialize_transaction ⟨i, sym, bp, none, 1, q, uid⟩ with status := 2 } := by
  simp [serialize_transaction, pyDecOptTruthy]

end Sandbyt
